import Mathlib

/-!
Shallow embedding of the synthpops population-synthesis pipeline
(`src/synthpops/pop.py`, class `Pop`), together with models of the repository
functions the pipeline calls that are not present under `src/`
(`spcnx.*`, `spb.*`, `spdata.*`, `custom_generate_all_households`,
`make_contacts_from_microstructure_objects`).  Each such model carries a
doc comment starting `Modelled from the spec:`.  Everything else is translated
directly from the Python source; line numbers refer to `src/synthpops/pop.py`.
-/

namespace Synthpops

abbrev Uid := Nat

/-- Error kinds of the synthesis pipeline, following the spec's error design:
`insufficientSupply` models an exhausted age pool (in the Python source an
`IndexError` on an empty per-age uid list or `np.random.choice` failing on an
all-zero probability vector inside a supply-constrained stage),
`invalidDistribution` models an input distribution with no positive total, and
`nonTermination` models a source `while` loop failing to make progress
(fuel exhaustion in this embedding). -/
inductive Err where
  | insufficientSupply
  | invalidDistribution
  | nonTermination
deriving DecidableEq, Repr

/-- Modelled from the spec: the single shared pseudo-random generator
(`np.random`), whose state the pipeline consumes in a fixed order.  The spec
only requires it to be deterministic given a seed; a linear-congruential step
stands in for the NumPy generator. -/
structure Rng where
  state : Nat
deriving DecidableEq, Repr, Inhabited

def rngMod : Nat := 2147483648

/-- Modelled from the spec: `sp.set_seed` (pop.py line 90) resets the shared
generator to a state determined by the seed alone. -/
def setSeed (s : Nat) : Rng := ⟨s % rngMod⟩

def rngNext (r : Rng) : Nat × Rng :=
  let s := (r.state * 1103515245 + 12345) % rngMod
  (s / 65536, ⟨s⟩)

/-- First index whose cumulative weight exceeds the sample point `x`. -/
def pickIndex : List ℚ → ℚ → Nat
  | [], _ => 0
  | w :: ws, x => if x < w then 0 else pickIndex ws (x - w) + 1

/-- Modelled from the spec: `np.random.choice(keys, p=probs)`.  Fails when the
weight vector has a negative entry or no positive total (NumPy rejects such
probability vectors); otherwise returns an index, never one of zero weight. -/
def choiceWeighted (ws : List ℚ) (r : Rng) : Except Err (Nat × Rng) :=
  if h : (∀ w ∈ ws, 0 ≤ w) ∧ 0 < ws.sum then
    let (k, r1) := rngNext r
    Except.ok (pickIndex ws (((k % rngMod : Nat) : ℚ) * ws.sum / rngMod), r1)
  else Except.error Err.invalidDistribution

/-- Modelled from the spec: `np.random.choice(arr)`: uniform draw from a
nonempty list; fails on an empty one. -/
def choiceUniform (l : List Nat) (r : Rng) : Except Err (Nat × Rng) :=
  match l with
  | [] => Except.error Err.invalidDistribution
  | a :: as =>
    let (k, r1) := rngNext r
    Except.ok ((a :: as).getD (k % (as.length + 1)) a, r1)

def shuffleGo : Nat → List Nat → Rng → List Nat × Rng
  | 0, l, r => (l, r)
  | _ + 1, [], r => ([], r)
  | fuel + 1, a :: as, r =>
    let (k, r1) := rngNext r
    let i := k % (as.length + 1)
    let x := (a :: as).getD i a
    let rest := (a :: as).eraseIdx i
    let (res, r2) := shuffleGo fuel rest r1
    (x :: res, r2)

/-- Modelled from the spec: `np.random.shuffle` (pop.py line 297), a
Fisher-Yates style reshuffle driven by the shared generator. -/
def shuffleList (l : List Nat) (r : Rng) : List Nat × Rng :=
  shuffleGo l.length l r

/-- External demographic inputs of `Pop.generate`.  Loading and parsing of the
underlying data files is out of scope per the spec; the pipeline consumes the
resulting distributions and brackets as immutable inputs.  Field names follow
the Python locals they stand for. -/
structure Data where
  /-- `age_distr_18` (pop.py line 249): probability of an 18-bracket age bracket. -/
  ageBracketDistr18 : Nat → ℚ
  /-- `age_by_brackets_dic_18` (line 252): bracket index of an age. -/
  ageByBracket18 : Nat → Nat
  /-- `len(age_brackets_18[b])` (lines 262, 269, ...): width of a bracket. -/
  ageBracketLen18 : Nat → Nat
  /-- `est_ltcf_user_by_age_brackets_perc['60-64']` (line 263), derived from the
  external LTCF data files (lines 133-245, out-of-scope data estimation). -/
  percAge60to64 : ℚ
  /-- `est_ltcf_user_by_age_brackets_perc['70-74']` (line 270). -/
  percAge70to74 : ℚ
  /-- `est_ltcf_user_by_age_brackets_perc['80-84']` (line 277). -/
  percAge80to84 : ℚ
  /-- `est_ltcf_user_by_age_brackets_perc['85-100']` (line 284). -/
  percAge85to100 : ℚ
  /-- `KC_resident_size_distr` values in sorted key order (lines 290-303). -/
  residentSizeDistr : List ℚ
  /-- `KC_residents_size_brackets` in the same order (lines 292, 307). -/
  residentSizeBrackets : List (List Nat)
  /-- `KC_ratio_distr` values in sorted key order (lines 415-423). -/
  ratioDistr : List ℚ
  /-- `KC_ratio_brackets` in the same order (lines 417, 430). -/
  ratioBrackets : List (List ℚ)
  /-- Household size distribution: weight of size `i+1` at index `i` (line 342). -/
  hhSizeDistr : List ℚ
  /-- Head-of-household age weights conditional on household size (`hha_by_size`,
  line 345): weight of head age `a` at index `a`. -/
  headAgeWeights : Nat → List ℚ
  /-- Contact-matrix row for a head age: weight of co-resident age `a` at index
  `a` (`contact_matrix_dic`, line 347). -/
  contactRow : Nat → List ℚ
  /-- School enrollment rate by age (consumed inside `get_uids_in_school`). -/
  enrollmentRate : Nat → ℚ
  /-- School size distribution over size brackets (lines 360-361). -/
  schoolSizeDistr : List ℚ
  schoolSizeBrackets : List (List Nat)
  /-- Employment rates by age (line 389). -/
  employmentRate : Nat → ℚ
  /-- Workplace size distribution over size brackets (lines 462-463). -/
  workplaceSizeDistr : List ℚ
  workplaceSizeBrackets : List (List Nat)

/-- Configuration surface of `Pop.__init__` relevant to the embedded pipeline;
field names follow the constructor arguments (pop.py lines 13-19). -/
structure Config where
  n : Nat
  maxContacts : Option (String → Option Nat)
  ltcfStaffAgeMin : Nat
  ltcfStaffAgeMax : Nat
  averageStudentTeacherRatio : ℚ
  averageStudentAllStaffRatio : ℚ
  teacherAgeMin : Nat
  teacherAgeMax : Nat
  staffAgeMin : Nat
  staffAgeMax : Nat
  randSeed : Option Nat

/-- `expected_users_by_age` (pop.py lines 256-285): for each age 60-100, the
expected LTCF resident count, `int(math.ceil(n * age_distr_18[b] /
len(age_brackets_18[b]) * est_ltcf_user_by_age_brackets_perc[key]))`, where the
percentage key is chosen by the age branch of lines 258-285. -/
def expectedUsersByAge (n : Nat) (d : Data) (a : Nat) : Nat :=
  let b := d.ageByBracket18 a
  let base : ℚ := (n : ℚ) * d.ageBracketDistr18 b / (d.ageBracketLen18 b : ℚ)
  let perc : ℚ :=
    if a < 65 then d.percAge60to64
    else if a < 75 then d.percAge70to74
    else if a < 85 then d.percAge80to84
    else d.percAge85to100
  (⌈base * perc⌉).toNat

/-- `all_residents` before shuffling (pop.py lines 294-296): for each age in
60..100, that many copies of the age. -/
def allResidentAges (n : Nat) (d : Data) : List Nat :=
  ((List.range 41).map (fun i => i + 60)).flatMap
    (fun a => List.replicate (expectedUsersByAge n d a) a)

/-- The `while len(all_residents) > 0` loop of pop.py lines 304-316 (also reused,
as a spec model, for partitioning students into schools): sample a size bracket
from `distr`, a concrete size uniformly within the bracket, clamp it to the
remaining pool, and slice that many elements off into a new group.  `fuel`
bounds the number of iterations; running out models the source loop failing to
make progress (possible only when a sampled size is 0). -/
def partitionBySampledSizes (distr : List ℚ) (brackets : List (List Nat)) :
    Nat → List Nat → Rng → Except Err (List (List Nat) × Rng)
  | _, [], r => .ok ([], r)
  | 0, _ :: _, _ => .error Err.nonTermination
  | fuel + 1, x :: xs, r =>
    match choiceWeighted distr r with
    | .error e => .error e
    | .ok (sbIdx, r1) =>
      let sbRange := brackets.getD sbIdx []
      match choiceUniform sbRange r1 with
      | .error e => .error e
      | .ok (size0, r2) =>
        let pool := x :: xs
        let size := if size0 > pool.length then pool.length else size0
        match partitionBySampledSizes distr brackets fuel (pool.drop size) r2 with
        | .error e => .error e
        | .ok (groups, r3) => .ok (pool.take size :: groups, r3)

/-- `n_nonltcf` (pop.py line 338): the population size minus all facility
residents, as the Python integer subtraction (possibly negative). -/
def nNonltcf (n : Nat) (facilities : List (List Nat)) : Int :=
  (n : Int) - ((facilities.map List.length).sum : Int)

/-- Modelled from the spec: `spcnx.generate_household_sizes_from_fixed_pop_size`
(pop.py line 343) is not under `src/`.  Per the spec, it samples a sequence of
household sizes from the household-size distribution summing exactly to the
remaining (non-facility) population count, the last household absorbing any
remainder.  Sampled sizes are `index + 1`, hence always positive. -/
def generateHouseholdSizesGo (d : Data) : Nat → Nat → Rng → Except Err (List Nat × Rng)
  | _, 0, r => .ok ([], r)
  | 0, _ + 1, _ => .error Err.nonTermination
  | fuel + 1, rem + 1, r =>
    match choiceWeighted d.hhSizeDistr r with
    | .error e => .error e
    | .ok (idx, r1) =>
      let size := idx + 1
      if rem + 1 ≤ size then .ok ([rem + 1], r1)
      else
        match generateHouseholdSizesGo d fuel (rem + 1 - size) r1 with
        | .error e => .error e
        | .ok (sizes, r2) => .ok (size :: sizes, r2)

/-- Modelled from the spec: wrapper handling the possibly negative
`n_nonltcf`; a negative remaining count cannot be summed to by household sizes,
an `InsufficientSupply`-style failure. -/
def generateHouseholdSizes (d : Data) (nn : Int) (r : Rng) :
    Except Err (List Nat × Rng) :=
  if nn < 0 then .error Err.insufficientSupply
  else generateHouseholdSizesGo d nn.toNat nn.toNat r

/-- Modelled from the spec: filling the non-head slots of one household by
sampling ages from the contact-matrix row of the head's age. -/
def fillHouseholdAges (d : Data) (headAge : Nat) :
    Nat → Rng → Except Err (List Nat × Rng)
  | 0, r => .ok ([], r)
  | k + 1, r =>
    match choiceWeighted (d.contactRow headAge) r with
    | .error e => .error e
    | .ok (a, r1) =>
      match fillHouseholdAges d headAge k r1 with
      | .error e => .error e
      | .ok (ages, r2) => .ok (a :: ages, r2)

/-- Modelled from the spec: `custom_generate_all_households` (pop.py line 349)
is not under `src/`.  Per the spec, each household of sampled size `s` gets a
head age drawn from the size-conditional head-of-household age distribution and
`s - 1` further ages drawn from the contact-matrix row of the head's age. -/
def generateAllHouseholds (d : Data) :
    List Nat → Rng → Except Err (List (List Nat) × Rng)
  | [], r => .ok ([], r)
  | size :: sizes, r =>
    match choiceWeighted (d.headAgeWeights size) r with
    | .error e => .error e
    | .ok (headAge, r1) =>
      match fillHouseholdAges d headAge (size - 1) r1 with
      | .error e => .error e
      | .ok (others, r2) =>
        match generateAllHouseholds d sizes r2 with
        | .error e => .error e
        | .ok (homes, r3) => .ok ((headAge :: others) :: homes, r3)

/-- Modelled from the spec: `spcnx.assign_uids_by_homes` (pop.py line 352) is
not under `src/`.  Every member of every home (facilities first, households
after, per line 350) receives a consecutive uid. -/
def assignUidsGo (start : Uid) : List (List Nat) → List (List Uid)
  | [] => []
  | h :: hs => (List.range h.length).map (· + start) :: assignUidsGo (start + h.length) hs

def assignUidsByHomes (homes : List (List Nat)) : List (List Uid) :=
  assignUidsGo 0 homes

/-- Modelled from the spec: `spb.get_ids_by_age_dic` (pop.py line 357): the uids
whose age is `a`, given the age list indexed by uid. -/
def uidsOfAge (ages : List Nat) (a : Nat) : List Uid :=
  (List.range ages.length).filter (fun u => ages.getD u 0 == a)

/-- Modelled from the spec: `spcnx.get_uids_in_school` (pop.py line 364) is not
under `src/`.  Per the spec, for each age the expected number of enrolled
students is the age-group size times the enrollment rate; that many uids are
drawn into the in-school pool. -/
def uidsInSchool (d : Data) (ages : List Nat) : List Uid :=
  (List.range 101).flatMap (fun a =>
    let pool := uidsOfAge ages a
    pool.take ((⌊(pool.length : ℚ) * d.enrollmentRate a⌋).toNat))

/-- The two shared mutable worker structures of the workforce stages:
`potential_worker_uids_by_age` (per-age uid pool; the dict
`potential_worker_uids` mirrors its union) and
`workers_by_age_to_assign_count`, kept as integers since the source decrements
them with plain Python arithmetic. -/
structure WorkerPools where
  byAge : List (List Uid)
  counts : List Int
deriving DecidableEq, Repr, Inhabited

/-- Modelled from the spec: `spcnx.get_uids_potential_workers` and
`spcnx.get_workers_by_age_to_assign` (pop.py lines 392-393) are not under
`src/`.  Per the spec, potential workers are all individuals not enrolled as
students, and the per-age remaining-to-assign counter starts at the employment
rate times the age-group size. -/
def initialWorkerPools (d : Data) (ages : List Nat) (students : List Uid) :
    WorkerPools :=
  { byAge := (List.range 101).map
      (fun a => (uidsOfAge ages a).filter (fun u => !(students.contains u)))
    counts := (List.range 101).map
      (fun a => ⌊((uidsOfAge ages a).length : ℚ) * d.employmentRate a⌋) }

/-- One iteration of the facility-resident removal loop (pop.py lines 396-403):
if the uid is still a potential worker, remove it from the per-age pool and
decrement its age counter only when that counter is positive. -/
def removeUidFromPools (ages : List Nat) (wp : WorkerPools) (uid : Uid) :
    WorkerPools :=
  let aindex := ages.getD uid 0
  if uid ∈ wp.byAge.getD aindex [] then
    { byAge := wp.byAge.set aindex ((wp.byAge.getD aindex []).erase uid)
      counts :=
        if 0 < wp.counts.getD aindex 0 then
          wp.counts.set aindex (wp.counts.getD aindex 0 - 1)
        else wp.counts }
  else wp

/-- The facility-resident removal stage (pop.py lines 396-403): every uid of
every facility is removed from the potential-worker structures. -/
def removeResidentsFromWorkers (ages : List Nat)
    (facilitiesByUids : List (List Uid)) (wp : WorkerPools) : WorkerPools :=
  facilitiesByUids.foldl (fun w fc => fc.foldl (removeUidFromPools ages) w) wp

/-- Modelled from the spec: one worker draw of the school/workplace stages
(`assign_teachers_to_schools`, `assign_additional_staff_to_schools`,
`assign_rest_of_workers`; not under `src/`).  Per the spec, the draw is
weighted by the remaining per-age counts restricted to the age range, an
exhausted uid pool is a hard failure, and the per-age counter clamps at zero
rather than going negative. -/
def drawWorkerClamped (lo hi : Nat) (wp : WorkerPools) (r : Rng) :
    Except Err (Uid × WorkerPools × Rng) :=
  let range := (List.range (hi + 1 - lo)).map (· + lo)
  let ws := range.map (fun a => (((wp.counts.getD a 0).toNat : Nat) : ℚ))
  match choiceWeighted ws r with
  | .error _ => .error Err.insufficientSupply
  | .ok (i, r1) =>
    let a := lo + i
    match wp.byAge.getD a [] with
    | [] => .error Err.insufficientSupply
    | uid :: rest =>
      .ok (uid,
        { byAge := wp.byAge.set a rest
          counts := wp.counts.set a (max (wp.counts.getD a 0 - 1) 0) }, r1)

/-- Modelled from the spec: a fixed number of clamped worker draws. -/
def drawWorkersClamped (lo hi : Nat) :
    Nat → WorkerPools → Rng → Except Err (List Uid × WorkerPools × Rng)
  | 0, wp, r => .ok ([], wp, r)
  | k + 1, wp, r =>
    match drawWorkerClamped lo hi wp r with
    | .error e => .error e
    | .ok (uid, wp1, r1) =>
      match drawWorkersClamped lo hi k wp1 r1 with
      | .error e => .error e
      | .ok (uids, wp2, r2) => .ok (uid :: uids, wp2, r2)

/-- Modelled from the spec: `spcnx.assign_teachers_to_schools` (pop.py line 406)
is not under `src/`.  Per the spec, each school needs
`ceil(students / average_student_teacher_ratio)` teachers, drawn from the
potential-worker pool restricted to the teacher age range. -/
def assignTeachersToSchools (cfg : Config) :
    List (List Uid) → WorkerPools → Rng →
    Except Err (List (List Uid) × WorkerPools × Rng)
  | [], wp, r => .ok ([], wp, r)
  | sch :: rest, wp, r =>
    let nTeachers := (⌈(sch.length : ℚ) / cfg.averageStudentTeacherRatio⌉).toNat
    match drawWorkersClamped cfg.teacherAgeMin cfg.teacherAgeMax nTeachers wp r with
    | .error e => .error e
    | .ok (uids, wp1, r1) =>
      match assignTeachersToSchools cfg rest wp1 r1 with
      | .error e => .error e
      | .ok (teacherLists, wp2, r2) => .ok (uids :: teacherLists, wp2, r2)

/-- Modelled from the spec: `spcnx.assign_additional_staff_to_schools` (pop.py
line 409) is not under `src/`.  Per the spec, each school needs
`ceil(students / average_student_all_staff_ratio)` total staff; the non-teaching
staff count is that total minus the teachers already assigned, floored at zero,
drawn from the staff age range. -/
def assignNonTeachingStaff (cfg : Config) :
    List (List Uid × List Uid) → WorkerPools → Rng →
    Except Err (List (List Uid) × WorkerPools × Rng)
  | [], wp, r => .ok ([], wp, r)
  | (sch, teachers) :: rest, wp, r =>
    let nAllStaff := (⌈(sch.length : ℚ) / cfg.averageStudentAllStaffRatio⌉).toNat
    let nStaff := nAllStaff - teachers.length
    match drawWorkersClamped cfg.staffAgeMin cfg.staffAgeMax nStaff wp r with
    | .error e => .error e
    | .ok (uids, wp1, r1) =>
      match assignNonTeachingStaff cfg rest wp1 r1 with
      | .error e => .error e
      | .ok (staffLists, wp2, r2) => .ok (uids :: staffLists, wp2, r2)

/-- `np.mean` of a rational list (pop.py line 431). -/
def listMeanQ (l : List ℚ) : ℚ := l.sum / (l.length : ℚ)

/-- One facility-staff draw (pop.py lines 440-451): age weights are the raw
per-age counters over `staff_age_range` (`a_prob`, normalized by their sum;
`np.random.choice` fails if they are negative or all zero — abstracted as
`InsufficientSupply` per the spec), the drawn uid is the head of the chosen
age's pool (an empty pool is the source's `IndexError`), and the counter of the
chosen age is decremented unconditionally (line 448). -/
def drawStaffOne (lo hi : Nat) (wp : WorkerPools) (r : Rng) :
    Except Err (Uid × WorkerPools × Rng) :=
  let range := (List.range (hi + 1 - lo)).map (· + lo)
  let ws := range.map (fun a => ((wp.counts.getD a 0 : Int) : ℚ))
  match choiceWeighted ws r with
  | .error _ => .error Err.insufficientSupply
  | .ok (i, r1) =>
    let a := lo + i
    match wp.byAge.getD a [] with
    | [] => .error Err.insufficientSupply
    | uid :: rest =>
      .ok (uid,
        { byAge := wp.byAge.set a rest
          counts := wp.counts.set a (wp.counts.getD a 0 - 1) }, r1)

/-- The `for i in range(n_staff)` loop of pop.py lines 440-451. -/
def drawStaffLoop (lo hi : Nat) :
    Nat → WorkerPools → Rng → Except Err (List Uid × WorkerPools × Rng)
  | 0, wp, r => .ok ([], wp, r)
  | k + 1, wp, r =>
    match drawStaffOne lo hi wp r with
    | .error e => .error e
    | .ok (uid, wp1, r1) =>
      match drawStaffLoop lo hi k wp1 r1 with
      | .error e => .error e
      | .ok (uids, wp2, r2) => .ok (uid :: uids, wp2, r2)

/-- Staffing of one facility (pop.py lines 426-451): sample a ratio bracket from
the ratio distribution, take the bracket mean (`np.mean(sb_range)`, line 431),
divide by 3 for the three 8-hour shifts (line 434), and draw
`int(math.ceil(n_residents / resident_staff_ratio))` staff (line 437).  A zero
effective ratio is the source's `ZeroDivisionError`. -/
def staffOneFacility (d : Data) (lo hi : Nat) (fc : List Nat) (wp : WorkerPools)
    (r : Rng) : Except Err (List Uid × WorkerPools × Rng) :=
  match choiceWeighted d.ratioDistr r with
  | .error e => .error e
  | .ok (sbIdx, r1) =>
    let residentStaffRatio := listMeanQ (d.ratioBrackets.getD sbIdx []) / 3
    if residentStaffRatio = 0 then .error Err.invalidDistribution
    else
      let nStaff := (⌈(fc.length : ℚ) / residentStaffRatio⌉).toNat
      drawStaffLoop lo hi nStaff wp r1

/-- The `for nf, fc in enumerate(facilities)` loop of pop.py lines 426-454. -/
def assignFacilityStaff (d : Data) (lo hi : Nat) :
    List (List Nat) → WorkerPools → Rng →
    Except Err (List (List Uid) × WorkerPools × Rng)
  | [], wp, r => .ok ([], wp, r)
  | fc :: rest, wp, r =>
    match staffOneFacility d lo hi fc wp r with
    | .error e => .error e
    | .ok (uids, wp1, r1) =>
      match assignFacilityStaff d lo hi rest wp1 r1 with
      | .error e => .error e
      | .ok (staffLists, wp2, r2) => .ok (uids :: staffLists, wp2, r2)

/-- Workers still to be assigned, counting only positive counters. -/
def remainingWorkers (wp : WorkerPools) : Nat :=
  (wp.counts.map Int.toNat).sum

/-- Modelled from the spec: `spcnx.generate_workplace_sizes` and
`spcnx.assign_rest_of_workers` (pop.py lines 464-467) are not under `src/`.
Per the spec, workplace sizes are sampled from the workplace size distribution
and the remaining unassigned workers are drawn (clamped, all ages) into
workplaces until none remain. -/
def assignRestOfWorkers (d : Data) :
    Nat → WorkerPools → Rng → Except Err (List (List Uid) × WorkerPools × Rng)
  | 0, wp, r =>
    if remainingWorkers wp = 0 then .ok ([], wp, r)
    else .error Err.nonTermination
  | fuel + 1, wp, r =>
    if remainingWorkers wp = 0 then .ok ([], wp, r)
    else
      match choiceWeighted d.workplaceSizeDistr r with
      | .error e => .error e
      | .ok (sbIdx, r1) =>
        match choiceUniform (d.workplaceSizeBrackets.getD sbIdx []) r1 with
        | .error e => .error e
        | .ok (size, r2) =>
          let k := min size (remainingWorkers wp)
          match drawWorkersClamped 0 100 k wp r2 with
          | .error e => .error e
          | .ok (uids, wp1, r3) =>
            match assignRestOfWorkers d fuel wp1 r3 with
            | .error e => .error e
            | .ok (wplaces, wp2, r4) => .ok (uids :: wplaces, wp2, r4)

/-- The named contact layers of the output network. -/
inductive Layer where
  | H | S | W | LTCF | C
deriving DecidableEq, Repr, Inhabited

/-- One record of the output population dictionary: uid, age and one contact
set per layer (sex is carried through in the source but irrelevant here). -/
structure Person where
  uid : Uid
  age : Nat
  contactsH : List Uid
  contactsS : List Uid
  contactsW : List Uid
  contactsLTCF : List Uid
  contactsC : List Uid
deriving DecidableEq, Repr, Inhabited

def Person.contactsOf (p : Person) : Layer → List Uid
  | .H => p.contactsH
  | .S => p.contactsS
  | .W => p.contactsW
  | .LTCF => p.contactsLTCF
  | .C => p.contactsC

/-- All ordered pairs of distinct members of one group (each member paired with
every later member other than itself; set semantics of the source exclude
self-contacts). -/
def pairsOf : List Uid → List (Uid × Uid)
  | [] => []
  | x :: xs => (xs.filter (fun y => y ≠ x)).map (fun y => (x, y)) ++ pairsOf xs

/-- Modelled from the spec: random edge sub-sampling applied when a group
exceeds the layer's maximum-contact cap; the kept-edge bit is derived from the
generator state and the edge's endpoints, so the same unordered edge is kept or
dropped as a whole. -/
def capEdges (cap : Option Nat) (groupLen : Nat) (r : Rng) (es : List (Uid × Uid)) :
    List (Uid × Uid) :=
  match cap with
  | none => es
  | some c =>
    if groupLen ≤ c then es
    else es.filter (fun e => (rngNext ⟨r.state + e.1 + e.2⟩).1 % 2 == 0)

/-- The edges of one layer: each group's distinct pairs, capped per group. -/
def edgesOfGroups (groups : List (List Uid)) (cap : Option Nat) (r : Rng) :
    List (Uid × Uid) :=
  groups.flatMap (fun g => capEdges cap g.length r (pairsOf g))

/-- The contact set of `u` induced by an undirected edge list: both endpoints
of every edge see each other. -/
def contactsOfUid (es : List (Uid × Uid)) (u : Uid) : List Uid :=
  (es.filter (fun e => e.1 = u)).map (fun e => e.2) ++
    (es.filter (fun e => e.2 = u)).map (fun e => e.1)

/-- Pair each school's student list with its teacher (or staff) list and merge
them into one group. -/
def zipConcat (xs ys : List (List Uid)) : List (List Uid) :=
  (xs.zip ys).map (fun p => p.1 ++ p.2)

/-- Modelled from the spec: `spcnx.make_contacts_from_microstructure_objects`
(pop.py lines 472-490) is not under `src/`.  Per the spec, every household,
school (students, teachers and non-teaching staff together), workplace and
facility (residents and staff together) becomes a fully connected contact group
in its layer, the workplace layer capped at `max_contacts['W']` by random edge
sub-sampling, and the community layer is left empty; contact sets are mirrored
across both endpoints. -/
def makeContactsFromMicrostructure (ageByUid : List Nat)
    (homesByUids schoolsByUids teachersByUids nonTeachingStaffUids
      workplacesByUids facilitiesByUids facilitiesStaffUids : List (List Uid))
    (maxContactsW : Nat) (r : Rng) : List Person :=
  let hEdges := edgesOfGroups homesByUids none r
  let sGroups := zipConcat (zipConcat schoolsByUids teachersByUids) nonTeachingStaffUids
  let sEdges := edgesOfGroups sGroups none r
  let wEdges := edgesOfGroups workplacesByUids (some maxContactsW) r
  let fGroups := zipConcat facilitiesByUids facilitiesStaffUids
  let fEdges := edgesOfGroups fGroups none r
  (List.range ageByUid.length).map (fun u =>
    { uid := u
      age := ageByUid.getD u 0
      contactsH := contactsOfUid hEdges u
      contactsS := contactsOfUid sEdges u
      contactsW := contactsOfUid wEdges u
      contactsLTCF := contactsOfUid fEdges u
      contactsC := [] })

/-- Modelled from sciris semantics: `sc.mergedicts` (pop.py line 95) merges its
arguments left to right, later entries overriding earlier ones, with `None`
arguments skipped; dictionaries are modelled as partial functions. -/
def mergedicts (d1 : String → Option Nat) (d2 : Option (String → Option Nat)) :
    String → Option Nat :=
  fun k =>
    match d2 with
    | none => d1 k
    | some f => (f k).orElse (fun _ => d1 k)

/-- `default_max_contacts` (pop.py line 92). -/
def defaultMaxContacts : String → Option Nat :=
  fun k => if k = "W" then some 20 else none

/-- `self.max_contacts = sc.mergedicts(default_max_contacts, self.max_contacts)`
(pop.py line 95). -/
def mergedMaxContacts (userMaxContacts : Option (String → Option Nat)) :
    String → Option Nat :=
  mergedicts defaultMaxContacts userMaxContacts

/-- The pipeline stages of `Pop.generate`, tagged in the order the source
executes them (line numbers of pop.py in parentheses). -/
inductive Stage where
  /-- Residents placed into facilities (lines 294-316). -/
  | facilityResidents
  /-- Household sizes and households generated (lines 342-350). -/
  | households
  /-- Uids assigned across facilities and homes (lines 352-357). -/
  | uidAssignment
  /-- Students sent to schools (lines 360-386). -/
  | schools
  /-- Potential-worker pools computed (lines 389-393). -/
  | potentialWorkers
  /-- Facility residents removed from the worker pools (lines 396-403). -/
  | removeResidents
  /-- Teachers assigned to schools (lines 405-407). -/
  | teachers
  /-- Non-teaching school staff assigned (lines 409-410). -/
  | nonTeachingStaff
  /-- Facility care staff drawn (lines 412-454). -/
  | facilityStaff
  /-- Remaining workers assigned to workplaces (lines 461-467). -/
  | workplaces
  /-- Contact network assembled (lines 469-490). -/
  | contacts
deriving DecidableEq, Repr, Inhabited

/-- The result of a successful run: the groupings produced by each stage, the
generator state at contact assembly, the assembled population dictionary and
the stage trace. -/
structure GenResult where
  ageByUid : List Nat
  facilitiesByUids : List (List Uid)
  homesByUids : List (List Uid)
  schoolsByUids : List (List Uid)
  teachersByUids : List (List Uid)
  nonTeachingStaffUids : List (List Uid)
  workplacesByUids : List (List Uid)
  facilitiesStaffUids : List (List Uid)
  contactsRng : Rng
  popdict : List Person
  trace : List Stage
deriving DecidableEq, Repr, Inhabited

/-- The body of `Pop.generate` (pop.py lines 127-490) from a given generator
state: place LTCF residents, generate households over the remaining
`n_nonltcf` people, assign uids, send students to school, compute the worker
pools, remove facility residents from them, assign teachers, assign
non-teaching school staff, draw facility care staff, assign the rest of the
workers to workplaces, and assemble the contact network.  Each completed stage
appends its tag to the trace. -/
def generateFrom (cfg : Config) (d : Data) (r0 : Rng) : Except Err GenResult :=
  let residents0 := allResidentAges cfg.n d
  let shuffled := shuffleList residents0 r0
  match partitionBySampledSizes d.residentSizeDistr d.residentSizeBrackets
      shuffled.1.length shuffled.1 shuffled.2 with
  | .error e => .error e
  | .ok (facilities, r2) =>
    let t1 := [Stage.facilityResidents]
    match generateHouseholdSizes d (nNonltcf cfg.n facilities) r2 with
    | .error e => .error e
    | .ok (hhSizes, r3) =>
      match generateAllHouseholds d hhSizes r3 with
      | .error e => .error e
      | .ok (households, r4) =>
        let t2 := t1 ++ [Stage.households]
        let homes := facilities ++ households
        let homesByUids := assignUidsByHomes homes
        let ages := homes.flatten
        let facilitiesByUids := homesByUids.take facilities.length
        let t3 := t2 ++ [Stage.uidAssignment]
        let students := uidsInSchool d ages
        match partitionBySampledSizes d.schoolSizeDistr d.schoolSizeBrackets
            students.length students r4 with
        | .error e => .error e
        | .ok (schoolsByUids, r5) =>
          let t4 := t3 ++ [Stage.schools]
          let wp0 := initialWorkerPools d ages students
          let t5 := t4 ++ [Stage.potentialWorkers]
          let wp1 := removeResidentsFromWorkers ages facilitiesByUids wp0
          let t6 := t5 ++ [Stage.removeResidents]
          match assignTeachersToSchools cfg schoolsByUids wp1 r5 with
          | .error e => .error e
          | .ok (teachersByUids, wp2, r6) =>
            let t7 := t6 ++ [Stage.teachers]
            match assignNonTeachingStaff cfg (schoolsByUids.zip teachersByUids)
                wp2 r6 with
            | .error e => .error e
            | .ok (staffByUids, wp3, r7) =>
              let t8 := t7 ++ [Stage.nonTeachingStaff]
              match assignFacilityStaff d cfg.ltcfStaffAgeMin cfg.ltcfStaffAgeMax
                  facilities wp3 r7 with
              | .error e => .error e
              | .ok (facilitiesStaffUids, wp4, r8) =>
                let t9 := t8 ++ [Stage.facilityStaff]
                match assignRestOfWorkers d (remainingWorkers wp4) wp4 r8 with
                | .error e => .error e
                | .ok (workplacesByUids, _, r9) =>
                  let t10 := t9 ++ [Stage.workplaces]
                  let householdsByUids := homesByUids.drop facilities.length
                  let maxW := (mergedMaxContacts cfg.maxContacts "W").getD 20
                  let popdict := makeContactsFromMicrostructure ages
                    householdsByUids schoolsByUids teachersByUids staffByUids
                    workplacesByUids facilitiesByUids facilitiesStaffUids maxW r9
                  .ok { ageByUid := ages
                        facilitiesByUids := facilitiesByUids
                        homesByUids := householdsByUids
                        schoolsByUids := schoolsByUids
                        teachersByUids := teachersByUids
                        nonTeachingStaffUids := staffByUids
                        workplacesByUids := workplacesByUids
                        facilitiesStaffUids := facilitiesStaffUids
                        contactsRng := r9
                        popdict := popdict
                        trace := t10 ++ [Stage.contacts] }

/-- `sp.set_seed(self.rand_seed)` is called only when a seed is given
(pop.py lines 89-90); otherwise the pre-existing global generator state is
used. -/
def initRng (seed : Option Nat) (g : Rng) : Rng :=
  match seed with
  | some s => setSeed s
  | none => g

/-- The embedded `Pop.generate`, from configuration, demographic inputs and the
prior global generator state. -/
def generate (cfg : Config) (d : Data) (g : Rng) : Except Err GenResult :=
  generateFrom cfg d (initRng cfg.randSeed g)

/-- The order in which a successful run executes its stages. -/
def canonicalTrace : List Stage :=
  [Stage.facilityResidents, Stage.households, Stage.uidAssignment,
   Stage.schools, Stage.potentialWorkers, Stage.removeResidents,
   Stage.teachers, Stage.nonTeachingStaff, Stage.facilityStaff,
   Stage.workplaces, Stage.contacts]

/-- All names bound in the body of `Pop.generate` (pop.py lines 127-492):
its parameters, every assignment target and every `for`-loop target, in order
of first binding.  In Python any name assigned anywhere in a function body is
local to it; a name not in this list and not a module global raises
`NameError` when read. -/
def generateBoundNames : List String :=
  ["self", "verbose",
   "ltcf_df", "ltcf_age_bracket_keys", "facility_keys", "facillity_users",
   "fk", "ab", "total_facility_users", "state_pop_2016", "state_age_distr_2016",
   "state_pop_2018", "state_age_distr_2018", "a", "num_state_elderly_2016",
   "num_state_elderly_2018", "expected_users_2018", "age_distr_16",
   "age_brackets_16", "age_by_brackets_dic_16", "pop", "local_elderly_2018",
   "est_seattle_users_2018", "b", "est_ltcf_user_by_age_brackets_perc",
   "age_brackets_18_fp", "age_distr_18", "age_brackets_18",
   "age_by_brackets_dic_18", "n", "expected_users_by_age",
   "KC_resident_size_distr", "KC_residents_size_brackets", "all_residents",
   "facilities", "size_bracket_keys", "size_distr_array", "sb", "sb_range",
   "size", "new_facility", "max_age", "expected_age_distr",
   "expected_age_count", "ltcf_adjusted_age_count",
   "ltcf_adjusted_age_distr_dict", "ltcf_adjusted_age_distr", "n_nonltcf",
   "household_size_distr", "hh_sizes", "hha_brackets", "hha_by_size",
   "contact_matrix_dic", "homes_dic", "homes", "homes_by_uids",
   "age_by_uid_dic", "facilities_by_uids", "uids_by_age_dic",
   "school_sizes_count_by_brackets", "school_size_brackets", "uids_in_school",
   "uids_in_school_by_age", "ages_in_school_count", "school_size_distr_by_type",
   "school_types_by_age", "school_type_age_ranges", "syn_schools",
   "syn_school_uids", "syn_school_types", "syn_school_sizes",
   "employment_rates", "potential_worker_uids", "potential_worker_uids_by_age",
   "potential_worker_ages_left_count", "workers_by_age_to_assign_count",
   "nf", "fc", "uid", "aindex", "syn_teachers", "syn_teacher_uids",
   "syn_non_teaching_staff_uids", "datadir", "KC_ratio_distr",
   "KC_ratio_brackets", "facilities_staff", "facilities_staff_uids",
   "sorted_ratio_keys", "sorted_ratio_array", "staff_age_range", "n_residents",
   "resident_staff_ratio", "n_staff", "new_staff", "new_staff_uids", "i",
   "a_prob", "workplace_size_brackets", "workplace_size_distr_by_brackets",
   "workplace_sizes", "syn_workplaces", "syn_workplace_uids", "popdict"]

/-- The module-level names of pop.py: its imports (lines 5-8) and the class
itself (line 11). -/
def popModuleNames : List String := ["sc", "sp", "log", "cfg", "Pop"]

/-- The name the final statement of `Pop.generate` returns (pop.py line 492). -/
def generateReturnName : String := "population"

/-- A small concrete demographic input used by the witnesses: one 18-bracket
age bracket of weight one half holding age 90, LTCF usage only above 85,
facilities of two residents, resident-to-staff ratio bracket averaging 6,
households of size two headed by age 30, no school enrollment, full employment
at age 30, workplaces of size five. -/
def dataW : Data where
  ageBracketDistr18 := fun b => if b = 1 then 1/2 else 0
  ageByBracket18 := fun a => if a = 90 then 1 else 0
  ageBracketLen18 := fun _ => 1
  percAge60to64 := 0
  percAge70to74 := 0
  percAge80to84 := 0
  percAge85to100 := 1/2
  residentSizeDistr := [1]
  residentSizeBrackets := [[2]]
  ratioDistr := [1]
  ratioBrackets := [[6]]
  hhSizeDistr := [0, 1]
  headAgeWeights := fun _ => List.replicate 30 0 ++ [1]
  contactRow := fun _ => List.replicate 30 0 ++ [1]
  enrollmentRate := fun _ => 0
  schoolSizeDistr := [1]
  schoolSizeBrackets := [[1]]
  employmentRate := fun a => if a = 30 then 1 else 0
  workplaceSizeDistr := [1]
  workplaceSizeBrackets := [[5]]

/-- A small concrete configuration used by the witnesses. -/
def cfgW : Config where
  n := 8
  maxContacts := none
  ltcfStaffAgeMin := 20
  ltcfStaffAgeMax := 60
  averageStudentTeacherRatio := 20
  averageStudentAllStaffRatio := 15
  teacherAgeMin := 25
  teacherAgeMax := 75
  staffAgeMin := 20
  staffAgeMax := 75
  randSeed := some 5

/-- The result of the witness run. -/
def genResultW : GenResult :=
  match generate cfgW dataW ⟨0⟩ with
  | .ok res => res
  | .error _ => default

/-- The result of the witness run of `staffOneFacility` used for C5. -/
def wpC5 : WorkerPools :=
  { byAge := (List.replicate 101 ([] : List Uid)).set 30 [2, 3]
    counts := (List.replicate 101 (0 : Int)).set 30 6 }

def staffC5 : List Uid × WorkerPools × Rng :=
  match staffOneFacility dataW 20 60 [90, 90] wpC5 ⟨0⟩ with
  | .ok out => out
  | .error _ => default

/-- Worker pools with every per-age counter at zero but a worker of age 30
still in the pool: the state exhibiting that the facility-staff stage errors
instead of clamping. -/
def wpC4cex : WorkerPools :=
  { byAge := (List.replicate 101 ([] : List Uid)).set 30 [7]
    counts := List.replicate 101 (0 : Int) }

/-- Worker pools whose uid pools are all empty (counters positive at age 30),
exhibiting the facility-staff hard error of C6. -/
def wpC6 : WorkerPools :=
  { byAge := List.replicate 101 ([] : List Uid)
    counts := (List.replicate 101 (0 : Int)).set 30 6 }

/-- The first two persons of the witness run's population dictionary. -/
def personW0 : Person := (genResultW.popdict.get? 0).getD default

def personW1 : Person := (genResultW.popdict.get? 1).getD default

/-- A user-supplied `max_contacts` dictionary overriding the "W" key. -/
def userMaxContactsW : String → Option Nat :=
  fun k => if k = "W" then some 7 else none

/-- Claim C3 as stated: in every successful run, the pipeline stages execute in
the order facilities (residents and staff both) before households before
schools before the workforce draws (teachers, non-teaching school staff,
workplace workers) before contact assembly; in particular every facility staff
member is drawn before any teacher or non-teaching school staff member. -/
def claimC3Order : Prop :=
  ∀ cfg d g res, generate cfg d g = .ok res →
    res.trace.indexOf Stage.facilityResidents < res.trace.indexOf Stage.households ∧
    res.trace.indexOf Stage.households < res.trace.indexOf Stage.schools ∧
    res.trace.indexOf Stage.schools < res.trace.indexOf Stage.teachers ∧
    res.trace.indexOf Stage.facilityStaff < res.trace.indexOf Stage.teachers ∧
    res.trace.indexOf Stage.facilityStaff < res.trace.indexOf Stage.nonTeachingStaff ∧
    res.trace.indexOf Stage.facilityStaff < res.trace.indexOf Stage.workplaces ∧
    res.trace.indexOf Stage.workplaces < res.trace.indexOf Stage.contacts

/-- Claim C4's clamping assertion applied to the facility-staff stage (pop.py
lines 440-448), the stage the claim's own source range names: while the uid
pool restricted to the stage's age range still has a worker, a draw whose
counter would go below zero clamps it at zero instead of erroring — in
particular the draw never hard-errors merely because the counters are zero. -/
def claimC4Clamping : Prop :=
  ∀ lo hi (wp : WorkerPools) (r : Rng),
    (∃ a, lo ≤ a ∧ a ≤ hi ∧ wp.byAge.getD a [] ≠ []) →
    ∀ e, drawStaffOne lo hi wp r ≠ .error e

-- Properties of the embedding.
theorem pickIndex_lt_length (ws : List ℚ) (x : ℚ) (hx : 0 ≤ x)
    (hlt : x < ws.sum) : pickIndex ws x < ws.length := by
  induction ws generalizing x with
  | nil => simp [List.sum_nil] at hlt; exact absurd (lt_of_le_of_lt hx hlt) (lt_irrefl 0)
  | cons w ws ih =>
    by_cases h : x < w
    · simp [pickIndex, h]
    · have hw : w ≤ x := le_of_not_lt h
      have hx2 : 0 ≤ x - w := by linarith
      have hlt2 : x - w < ws.sum := by
        rw [List.sum_cons] at hlt; linarith
      simp only [pickIndex, if_neg h, List.length_cons]
      exact Nat.succ_lt_succ (ih (x - w) hx2 hlt2)

theorem pickIndex_pos_weight (ws : List ℚ) (x : ℚ) (hx : 0 ≤ x)
    (hlt : x < ws.sum) : 0 < ws.getD (pickIndex ws x) 0 := by
  induction ws generalizing x with
  | nil => simp [List.sum_nil] at hlt; exact absurd (lt_of_le_of_lt hx hlt) (lt_irrefl 0)
  | cons w ws ih =>
    by_cases h : x < w
    · simpa [pickIndex, h] using lt_of_le_of_lt hx h
    · have hw : w ≤ x := le_of_not_lt h
      have hlt2 : x - w < ws.sum := by
        rw [List.sum_cons] at hlt; linarith
      simpa [pickIndex, h] using ih (x - w) (by linarith) hlt2

theorem choiceWeighted_ok {ws : List ℚ} {r : Rng} {i : Nat} {r1 : Rng}
    (h : choiceWeighted ws r = .ok (i, r1)) :
    i < ws.length ∧ 0 < ws.getD i 0 := by
  unfold choiceWeighted at h
  split at h
  · rename_i hcond
    obtain ⟨hnn, hpos⟩ := hcond
    simp only [Except.ok.injEq, Prod.mk.injEq] at h
    obtain ⟨hi, _⟩ := h
    set k := (rngNext r).1 with hk
    have hM : (0 : ℚ) < (rngMod : ℚ) := by norm_num [rngMod]
    have hkM : ((k % rngMod : Nat) : ℚ) < (rngMod : ℚ) := by
      exact_mod_cast Nat.mod_lt _ (by norm_num [rngMod])
    have hk0 : (0 : ℚ) ≤ ((k % rngMod : Nat) : ℚ) := by positivity
    have hx0 : (0 : ℚ) ≤ ((k % rngMod : Nat) : ℚ) * ws.sum / rngMod := by
      have := le_of_lt hpos
      positivity
    have hxlt : ((k % rngMod : Nat) : ℚ) * ws.sum / rngMod < ws.sum := by
      rw [div_lt_iff₀ hM]
      calc ((k % rngMod : Nat) : ℚ) * ws.sum < (rngMod : ℚ) * ws.sum := by
            exact mul_lt_mul_of_pos_right hkM hpos
        _ = ws.sum * rngMod := by ring
    subst hi
    exact ⟨pickIndex_lt_length ws _ hx0 hxlt, pickIndex_pos_weight ws _ hx0 hxlt⟩
  · exact absurd h (by simp)

/-- Helper: `getD` with an in-range index returns a member; used for uniform draws. -/
theorem getD_mem_of_lt {α : Type _} (l : List α) {i : Nat} (h : i < l.length) (d : α) :
    l.getD i d ∈ l := by
  rw [List.getD_eq_getElem l d h]
  exact List.getElem_mem h

theorem choiceUniform_ok_mem {l : List Nat} {r : Rng} {v : Nat} {r1 : Rng}
    (h : choiceUniform l r = .ok (v, r1)) : v ∈ l := by
  match l with
  | [] => simp [choiceUniform] at h
  | a :: as =>
    simp only [choiceUniform, Except.ok.injEq, Prod.mk.injEq] at h
    obtain ⟨hv, _⟩ := h
    subst hv
    by_cases hi : (rngNext r).1 % (as.length + 1) < (a :: as).length
    · exact getD_mem_of_lt (a :: as) hi a
    · rw [List.getD_eq_default _ _ (le_of_not_lt hi)]
      exact List.mem_cons_self a as

theorem shuffleGo_length (fuel : Nat) (l : List Nat) (r : Rng) :
    (shuffleGo fuel l r).1.length = l.length := by
  induction fuel generalizing l r with
  | zero => simp [shuffleGo]
  | succ n ih =>
    match l with
    | [] => simp [shuffleGo]
    | a :: as =>
      simp only [shuffleGo, List.length_cons]
      have hi : (rngNext r).1 % (as.length + 1) < (a :: as).length := by
        simp only [List.length_cons]
        exact Nat.mod_lt _ (Nat.succ_pos _)
      have herase : ((a :: as).eraseIdx ((rngNext r).1 % (as.length + 1))).length
          = as.length := by
        rw [List.length_eraseIdx_of_lt hi]
        simp
      rw [ih]
      rw [herase]

theorem shuffleList_length (l : List Nat) (r : Rng) :
    (shuffleList l r).1.length = l.length := shuffleGo_length l.length l r


theorem partitionBySampledSizes_ok_flatten {distr : List ℚ} {brackets : List (List Nat)} :
    ∀ {fuel : Nat} {pool : List Nat} {r : Rng} {gs : List (List Nat)} {r2 : Rng},
    partitionBySampledSizes distr brackets fuel pool r = .ok (gs, r2) →
    gs.flatten = pool := by
  intro fuel
  induction fuel with
  | zero =>
    intro pool r gs r2 h
    match pool with
    | [] =>
      simp only [partitionBySampledSizes, Except.ok.injEq, Prod.mk.injEq] at h
      obtain ⟨h1, h2⟩ := h
      subst h1
      rfl
    | x :: xs => simp [partitionBySampledSizes] at h
  | succ fuel ih =>
    intro pool r gs r2 h
    match pool with
    | [] =>
      simp only [partitionBySampledSizes, Except.ok.injEq, Prod.mk.injEq] at h
      obtain ⟨h1, h2⟩ := h
      subst h1
      rfl
    | x :: xs =>
      simp only [partitionBySampledSizes] at h
      split at h
      · simp at h
      · rename_i sbIdx r1 hcw
        split at h
        · simp at h
        · rename_i size0 rU hcu
          split at h
          · simp at h
          · rename_i groups r3 hrec
            simp only [Except.ok.injEq, Prod.mk.injEq] at h
            obtain ⟨hgs, hr⟩ := h
            subst hgs
            simp only [List.flatten_cons]
            rw [ih hrec]
            exact List.take_append_drop _ _

theorem partitionBySampledSizes_ok_pos {distr : List ℚ} {brackets : List (List Nat)}
    (hb : ∀ br ∈ brackets, ∀ s ∈ br, 1 ≤ s) :
    ∀ {fuel : Nat} {pool : List Nat} {r : Rng} {gs : List (List Nat)} {r2 : Rng},
    partitionBySampledSizes distr brackets fuel pool r = .ok (gs, r2) →
    ∀ g ∈ gs, 1 ≤ g.length := by
  intro fuel
  induction fuel with
  | zero =>
    intro pool r gs r2 h
    match pool with
    | [] =>
      simp only [partitionBySampledSizes, Except.ok.injEq, Prod.mk.injEq] at h
      obtain ⟨h1, h2⟩ := h
      subst h1
      intro g hg
      simp at hg
    | x :: xs => simp [partitionBySampledSizes] at h
  | succ fuel ih =>
    intro pool r gs r2 h
    match pool with
    | [] =>
      simp only [partitionBySampledSizes, Except.ok.injEq, Prod.mk.injEq] at h
      obtain ⟨h1, h2⟩ := h
      subst h1
      intro g hg
      simp at hg
    | x :: xs =>
      simp only [partitionBySampledSizes] at h
      split at h
      · simp at h
      · rename_i sbIdx r1 hcw
        split at h
        · simp at h
        · rename_i size0 rU hcu
          split at h
          · simp at h
          · rename_i groups r3 hrec
            simp only [Except.ok.injEq, Prod.mk.injEq] at h
            obtain ⟨hgs, hr⟩ := h
            subst hgs
            intro g hg
            rcases List.mem_cons.mp hg with hghead | hgtail
            · subst hghead
              have hsize0 : 1 ≤ size0 := by
                have hmem := choiceUniform_ok_mem hcu
                by_cases hin : sbIdx < brackets.length
                · exact hb _ (getD_mem_of_lt brackets hin []) _ hmem
                · rw [List.getD_eq_default _ _ (le_of_not_lt hin)] at hmem
                  simp at hmem
              have hlen : 1 ≤ (x :: xs).length := by simp
              rw [List.length_take]
              rcases le_or_lt size0 (x :: xs).length with hle | hlt
              · have : ¬ (size0 > (x :: xs).length) := not_lt.mpr hle
                simp only [this, if_false]
                omega
              · have : size0 > (x :: xs).length := hlt
                simp only [this, if_true]
                omega
            · exact ih hrec g hgtail

theorem generateHouseholdSizesGo_ok_sum {d : Data} :
    ∀ {fuel rem : Nat} {r : Rng} {sizes : List Nat} {r2 : Rng},
    generateHouseholdSizesGo d fuel rem r = .ok (sizes, r2) →
    sizes.sum = rem := by
  intro fuel
  induction fuel with
  | zero =>
    intro rem r sizes r2 h
    match rem with
    | 0 =>
      simp only [generateHouseholdSizesGo, Except.ok.injEq, Prod.mk.injEq] at h
      obtain ⟨h1, h2⟩ := h
      subst h1
      rfl
    | _ + 1 => simp [generateHouseholdSizesGo] at h
  | succ fuel ih =>
    intro rem r sizes r2 h
    match rem with
    | 0 =>
      simp only [generateHouseholdSizesGo, Except.ok.injEq, Prod.mk.injEq] at h
      obtain ⟨h1, h2⟩ := h
      subst h1
      rfl
    | rem + 1 =>
      simp only [generateHouseholdSizesGo] at h
      split at h
      · simp at h
      · rename_i idx r1 hcw
        split at h
        · rename_i hle
          simp only [Except.ok.injEq, Prod.mk.injEq] at h
          obtain ⟨h1, h2⟩ := h
          subst h1
          simp
        · rename_i hgt
          split at h
          · simp at h
          · rename_i sizes1 r3 hrec
            simp only [Except.ok.injEq, Prod.mk.injEq] at h
            obtain ⟨h1, h2⟩ := h
            subst h1
            have hs := ih hrec
            simp only [List.sum_cons]
            omega

theorem generateHouseholdSizesGo_ok_pos {d : Data} :
    ∀ {fuel rem : Nat} {r : Rng} {sizes : List Nat} {r2 : Rng},
    generateHouseholdSizesGo d fuel rem r = .ok (sizes, r2) →
    ∀ s ∈ sizes, 1 ≤ s := by
  intro fuel
  induction fuel with
  | zero =>
    intro rem r sizes r2 h
    match rem with
    | 0 =>
      simp only [generateHouseholdSizesGo, Except.ok.injEq, Prod.mk.injEq] at h
      obtain ⟨h1, h2⟩ := h
      subst h1
      intro s hs
      simp at hs
    | _ + 1 => simp [generateHouseholdSizesGo] at h
  | succ fuel ih =>
    intro rem r sizes r2 h
    match rem with
    | 0 =>
      simp only [generateHouseholdSizesGo, Except.ok.injEq, Prod.mk.injEq] at h
      obtain ⟨h1, h2⟩ := h
      subst h1
      intro s hs
      simp at hs
    | rem + 1 =>
      simp only [generateHouseholdSizesGo] at h
      split at h
      · simp at h
      · rename_i idx r1 hcw
        split at h
        · rename_i hle
          simp only [Except.ok.injEq, Prod.mk.injEq] at h
          obtain ⟨h1, h2⟩ := h
          subst h1
          intro s hs
          simp at hs
          omega
        · rename_i hgt
          split at h
          · simp at h
          · rename_i sizes1 r3 hrec
            simp only [Except.ok.injEq, Prod.mk.injEq] at h
            obtain ⟨h1, h2⟩ := h
            subst h1
            intro s hs
            rcases List.mem_cons.mp hs with h0 | h0
            · omega
            · exact ih hrec s h0

theorem generateHouseholdSizes_ok {d : Data} {nn : Int} {r : Rng}
    {sizes : List Nat} {r2 : Rng}
    (h : generateHouseholdSizes d nn r = .ok (sizes, r2)) :
    0 ≤ nn ∧ (sizes.sum : Int) = nn ∧ ∀ s ∈ sizes, 1 ≤ s := by
  unfold generateHouseholdSizes at h
  split at h
  · simp at h
  · rename_i hnn
    have h0 : 0 ≤ nn := le_of_not_lt hnn
    refine ⟨h0, ?_, generateHouseholdSizesGo_ok_pos h⟩
    have hsum := generateHouseholdSizesGo_ok_sum h
    omega

theorem fillHouseholdAges_ok_length {d : Data} {headAge : Nat} :
    ∀ {k : Nat} {r : Rng} {ages : List Nat} {r2 : Rng},
    fillHouseholdAges d headAge k r = .ok (ages, r2) →
    ages.length = k := by
  intro k
  induction k with
  | zero =>
    intro r ages r2 h
    simp only [fillHouseholdAges, Except.ok.injEq, Prod.mk.injEq] at h
    obtain ⟨h1, h2⟩ := h
    subst h1
    rfl
  | succ k ih =>
    intro r ages r2 h
    simp only [fillHouseholdAges] at h
    split at h
    · simp at h
    · rename_i a r1 hcw
      split at h
      · simp at h
      · rename_i ages1 r3 hrec
        simp only [Except.ok.injEq, Prod.mk.injEq] at h
        obtain ⟨h1, h2⟩ := h
        subst h1
        simp [ih hrec]

theorem generateAllHouseholds_ok_lengths {d : Data} :
    ∀ {sizes : List Nat} {r : Rng} {homes : List (List Nat)} {r2 : Rng},
    generateAllHouseholds d sizes r = .ok (homes, r2) →
    (∀ s ∈ sizes, 1 ≤ s) →
    homes.map List.length = sizes := by
  intro sizes
  induction sizes with
  | nil =>
    intro r homes r2 h hpos
    simp only [generateAllHouseholds, Except.ok.injEq, Prod.mk.injEq] at h
    obtain ⟨h1, h2⟩ := h
    subst h1
    rfl
  | cons size sizes ih =>
    intro r homes r2 h hpos
    simp only [generateAllHouseholds] at h
    split at h
    · simp at h
    · rename_i headAge r1 hcw
      split at h
      · simp at h
      · rename_i others r1b hfill
        split at h
        · simp at h
        · rename_i homes1 r3 hrec
          simp only [Except.ok.injEq, Prod.mk.injEq] at h
          obtain ⟨h1, h2⟩ := h
          subst h1
          have hlen := fillHouseholdAges_ok_length hfill
          have hsize : 1 ≤ size := hpos size (List.mem_cons_self _ _)
          simp only [List.map_cons, List.length_cons, hlen]
          rw [ih hrec (fun s hs => hpos s (List.mem_cons_of_mem _ hs))]
          congr 1
          omega

theorem assignUidsGo_map_length :
    ∀ (homes : List (List Nat)) (s : Uid),
    (assignUidsGo s homes).map List.length = homes.map List.length := by
  intro homes
  induction homes with
  | nil => intro s; rfl
  | cons h hs ih =>
    intro s
    simp only [assignUidsGo, List.map_cons, List.length_map, List.length_range]
    rw [ih]

theorem drawStaffLoop_ok_length {lo hi : Nat} :
    ∀ {k : Nat} {wp : WorkerPools} {r : Rng} {uids : List Uid}
      {wp2 : WorkerPools} {r2 : Rng},
    drawStaffLoop lo hi k wp r = .ok (uids, wp2, r2) →
    uids.length = k := by
  intro k
  induction k with
  | zero =>
    intro wp r uids wp2 r2 h
    simp only [drawStaffLoop, Except.ok.injEq, Prod.mk.injEq] at h
    obtain ⟨h1, h2⟩ := h
    subst h1
    rfl
  | succ k ih =>
    intro wp r uids wp2 r2 h
    simp only [drawStaffLoop] at h
    split at h
    · simp at h
    · rename_i uid wp1 r1 hdraw
      split at h
      · simp at h
      · rename_i uids1 wp1b r3 hrec
        simp only [Except.ok.injEq, Prod.mk.injEq] at h
        obtain ⟨h1, h2⟩ := h
        subst h1
        simp [ih hrec]


theorem staffRangeWeights_getD (counts : List Int) (lo hi i : Nat)
    (hi2 : i < ((List.range (hi + 1 - lo)).map (· + lo)).length) :
    (((List.range (hi + 1 - lo)).map (· + lo)).map
        (fun a => ((counts.getD a 0 : Int) : ℚ))).getD i 0
      = ((counts.getD (lo + i) 0 : Int) : ℚ) := by
  have hi3 : i < hi + 1 - lo := by simpa using hi2
  rw [List.getD_eq_getElem _ _ (by simpa using hi2)]
  simp only [List.getElem_map, List.getElem_range]
  rw [Nat.add_comm i lo]

theorem drawStaffOne_ok_counts {lo hi : Nat} {wp : WorkerPools} {r : Rng}
    {uid : Uid} {wp1 : WorkerPools} {r1 : Rng}
    (h0 : ∀ c ∈ wp.counts, 0 ≤ c)
    (h : drawStaffOne lo hi wp r = .ok (uid, wp1, r1)) :
    ∀ c ∈ wp1.counts, 0 ≤ c := by
  simp only [drawStaffOne] at h
  split at h
  · simp at h
  · rename_i i rA hcw
    split at h
    · simp at h
    · rename_i u rest hpool
      simp only [Except.ok.injEq, Prod.mk.injEq] at h
      obtain ⟨h1, h2, h3⟩ := h
      subst h2
      intro c hc
      rcases List.mem_or_eq_of_mem_set hc with hmem | heq
      · exact h0 c hmem
      · subst heq
        obtain ⟨hilt, hposW⟩ := choiceWeighted_ok hcw
        rw [List.length_map] at hilt
        rw [staffRangeWeights_getD wp.counts lo hi i (by simpa using hilt)] at hposW
        have hcount : 0 < wp.counts.getD (lo + i) 0 := by exact_mod_cast hposW
        omega

theorem drawWorkerClamped_ok_counts {lo hi : Nat} {wp : WorkerPools} {r : Rng}
    {uid : Uid} {wp1 : WorkerPools} {r1 : Rng}
    (h0 : ∀ c ∈ wp.counts, 0 ≤ c)
    (h : drawWorkerClamped lo hi wp r = .ok (uid, wp1, r1)) :
    ∀ c ∈ wp1.counts, 0 ≤ c := by
  simp only [drawWorkerClamped] at h
  split at h
  · simp at h
  · rename_i i rA hcw
    split at h
    · simp at h
    · rename_i u rest hpool
      simp only [Except.ok.injEq, Prod.mk.injEq] at h
      obtain ⟨h1, h2, h3⟩ := h
      subst h2
      intro c hc
      rcases List.mem_or_eq_of_mem_set hc with hmem | heq
      · exact h0 c hmem
      · subst heq
        exact le_max_right _ _

theorem removeUidFromPools_counts (ages : List Nat) (wp : WorkerPools) (uid : Uid)
    (h0 : ∀ c ∈ wp.counts, 0 ≤ c) :
    ∀ c ∈ (removeUidFromPools ages wp uid).counts, 0 ≤ c := by
  simp only [removeUidFromPools]
  split
  · split
    · rename_i hpos
      intro c hc
      rcases List.mem_or_eq_of_mem_set hc with hmem | heq
      · exact h0 c hmem
      · subst heq; omega
    · exact h0
  · exact h0

theorem foldl_removeUid_counts (ages : List Nat) :
    ∀ (uids : List Uid) (wp : WorkerPools), (∀ c ∈ wp.counts, 0 ≤ c) →
    ∀ c ∈ (uids.foldl (removeUidFromPools ages) wp).counts, 0 ≤ c := by
  intro uids
  induction uids with
  | nil => intro wp h0; simpa using h0
  | cons u us ih =>
    intro wp h0
    simp only [List.foldl_cons]
    exact ih _ (removeUidFromPools_counts ages wp u h0)

theorem removeResidentsFromWorkers_counts (ages : List Nat)
    (facilitiesByUids : List (List Uid)) (wp : WorkerPools)
    (h0 : ∀ c ∈ wp.counts, 0 ≤ c) :
    ∀ c ∈ (removeResidentsFromWorkers ages facilitiesByUids wp).counts, 0 ≤ c := by
  unfold removeResidentsFromWorkers
  induction facilitiesByUids generalizing wp with
  | nil => simpa using h0
  | cons fc rest ih =>
    simp only [List.foldl_cons]
    exact ih _ (foldl_removeUid_counts ages fc wp h0)

theorem drawStaffOne_error_of_empty {lo hi : Nat} {wp : WorkerPools} {r : Rng}
    (hpool : ∀ a ∈ (List.range (hi + 1 - lo)).map (· + lo),
      wp.byAge.getD a [] = []) :
    drawStaffOne lo hi wp r = .error Err.insufficientSupply := by
  cases hcw : choiceWeighted
      (((List.range (hi + 1 - lo)).map (· + lo)).map
        (fun a => ((wp.counts.getD a 0 : Int) : ℚ))) r with
  | error e => simp only [drawStaffOne, hcw]
  | ok p =>
    obtain ⟨i, r1⟩ := p
    obtain ⟨hilt, _⟩ := choiceWeighted_ok hcw
    rw [List.length_map, List.length_map, List.length_range] at hilt
    have hmem : lo + i ∈ (List.range (hi + 1 - lo)).map (· + lo) :=
      List.mem_map.mpr ⟨i, List.mem_range.mpr hilt, by omega⟩
    simp only [drawStaffOne, hcw, hpool _ hmem]

theorem staffOneFacility_ok_inv {d : Data} {lo hi : Nat} {fc : List Nat}
    {wp : WorkerPools} {r : Rng} {staff : List Uid} {wp2 : WorkerPools} {r2 : Rng}
    (h : staffOneFacility d lo hi fc wp r = .ok (staff, wp2, r2)) :
    ∃ sbIdx r1, choiceWeighted d.ratioDistr r = .ok (sbIdx, r1) ∧
      listMeanQ (d.ratioBrackets.getD sbIdx []) / 3 ≠ 0 ∧
      staff.length = (⌈(fc.length : ℚ) /
        (listMeanQ (d.ratioBrackets.getD sbIdx []) / 3)⌉).toNat := by
  simp only [staffOneFacility] at h
  split at h
  · simp at h
  · rename_i sbIdx r1 hcw
    split at h
    · simp at h
    · rename_i hne
      exact ⟨sbIdx, r1, hcw, hne, drawStaffLoop_ok_length h⟩

theorem listMeanQ_nil : listMeanQ [] = 0 := by
  simp [listMeanQ]

theorem assignFacilityStaff_ok_pos {d : Data} {lo hi : Nat}
    (hr : ∀ br ∈ d.ratioBrackets, 0 < listMeanQ br) :
    ∀ {facilities : List (List Nat)} {wp : WorkerPools} {r : Rng}
      {staffLists : List (List Uid)} {wp2 : WorkerPools} {r2 : Rng},
    assignFacilityStaff d lo hi facilities wp r = .ok (staffLists, wp2, r2) →
    (∀ fc ∈ facilities, 1 ≤ fc.length) →
    ∀ st ∈ staffLists, 1 ≤ st.length := by
  intro facilities
  induction facilities with
  | nil =>
    intro wp r staffLists wp2 r2 h hfc
    simp only [assignFacilityStaff, Except.ok.injEq, Prod.mk.injEq] at h
    obtain ⟨h1, h2⟩ := h
    subst h1
    intro st hst
    simp at hst
  | cons fc rest ih =>
    intro wp r staffLists wp2 r2 h hfc
    simp only [assignFacilityStaff] at h
    split at h
    · simp at h
    · rename_i staff wp1 r1 hone
      split at h
      · simp at h
      · rename_i staffRest wp1b r3 hrec
        simp only [Except.ok.injEq, Prod.mk.injEq] at h
        obtain ⟨h1, h2⟩ := h
        subst h1
        intro st hst
        rcases List.mem_cons.mp hst with h0 | h0
        · subst h0
          obtain ⟨sbIdx, r1b, hcw, hne, hlen⟩ := staffOneFacility_ok_inv hone
          have hratio : 0 < listMeanQ (d.ratioBrackets.getD sbIdx []) / 3 := by
            by_cases hin : sbIdx < d.ratioBrackets.length
            · have := hr _ (getD_mem_of_lt d.ratioBrackets hin [])
              positivity
            · rw [List.getD_eq_default _ _ (le_of_not_lt hin), listMeanQ_nil] at hne
              simp at hne
          have hfc1 : 1 ≤ fc.length := hfc fc (List.mem_cons_self _ _)
          have hq : (0 : ℚ) < (fc.length : ℚ) /
              (listMeanQ (d.ratioBrackets.getD sbIdx []) / 3) := by
            apply div_pos _ hratio
            exact_mod_cast Nat.lt_of_lt_of_le Nat.zero_lt_one hfc1
          have hceil : 0 < ⌈(fc.length : ℚ) /
              (listMeanQ (d.ratioBrackets.getD sbIdx []) / 3)⌉ := Int.ceil_pos.mpr hq
          rw [hlen]
          omega
        · exact ih hrec (fun g hg => hfc g (List.mem_cons_of_mem _ hg)) st h0


theorem pairsOf_ne : ∀ {g : List Uid} {e : Uid × Uid}, e ∈ pairsOf g → e.1 ≠ e.2 := by
  intro g
  induction g with
  | nil => intro e h; simp [pairsOf] at h
  | cons x xs ih =>
    intro e h
    simp only [pairsOf, List.mem_append, List.mem_map, List.mem_filter,
      decide_eq_true_eq] at h
    rcases h with ⟨y, ⟨hy, hne⟩, rfl⟩ | h
    · simpa using fun hxy => hne hxy.symm
    · exact ih h

theorem capEdges_subset {cap : Option Nat} {glen : Nat} {r : Rng}
    {es : List (Uid × Uid)} : ∀ e ∈ capEdges cap glen r es, e ∈ es := by
  intro e he
  cases cap with
  | none => exact he
  | some c =>
    simp only [capEdges] at he
    split at he
    · exact he
    · exact (List.mem_filter.mp he).1

theorem edgesOfGroups_ne {groups : List (List Uid)} {cap : Option Nat} {r : Rng}
    {e : Uid × Uid} (h : e ∈ edgesOfGroups groups cap r) : e.1 ≠ e.2 := by
  simp only [edgesOfGroups, List.mem_flatMap] at h
  obtain ⟨g, hg, he⟩ := h
  exact pairsOf_ne (capEdges_subset e he)

theorem mem_contactsOfUid {es : List (Uid × Uid)} {u v : Uid} :
    v ∈ contactsOfUid es u ↔ (u, v) ∈ es ∨ (v, u) ∈ es := by
  simp only [contactsOfUid, List.mem_append, List.mem_map, List.mem_filter,
    decide_eq_true_eq]
  constructor
  · rintro (⟨e, ⟨he, h1⟩, h2⟩ | ⟨e, ⟨he, h1⟩, h2⟩)
    · left
      have : e = (u, v) := by
        cases e
        simp_all
      rwa [this] at he
    · right
      have : e = (v, u) := by
        cases e
        simp_all
      rwa [this] at he
  · rintro (h | h)
    · exact Or.inl ⟨(u, v), ⟨h, rfl⟩, rfl⟩
    · exact Or.inr ⟨(v, u), ⟨h, rfl⟩, rfl⟩

theorem contactsOfUid_symm {es : List (Uid × Uid)} {u v : Uid} :
    v ∈ contactsOfUid es u ↔ u ∈ contactsOfUid es v := by
  rw [mem_contactsOfUid, mem_contactsOfUid]
  exact Or.comm

theorem contactsOfUid_irrefl {es : List (Uid × Uid)} {u : Uid}
    (h : ∀ e ∈ es, e.1 ≠ e.2) : u ∉ contactsOfUid es u := by
  intro hmem
  rcases mem_contactsOfUid.mp hmem with h0 | h0
  · exact h _ h0 rfl
  · exact h _ h0 rfl

theorem makeContacts_get?_eq {ageByUid : List Nat}
    {homes schools teachers staff wkps facs fstaff : List (List Uid)}
    {mw : Nat} {r : Rng} {u : Uid} {p : Person}
    (h : (makeContactsFromMicrostructure ageByUid homes schools teachers staff
      wkps facs fstaff mw r).get? u = some p) :
    p.contactsH = contactsOfUid (edgesOfGroups homes none r) u ∧
    p.contactsS = contactsOfUid
      (edgesOfGroups (zipConcat (zipConcat schools teachers) staff) none r) u ∧
    p.contactsW = contactsOfUid (edgesOfGroups wkps (some mw) r) u ∧
    p.contactsLTCF = contactsOfUid (edgesOfGroups (zipConcat facs fstaff) none r) u ∧
    p.contactsC = [] := by
  simp only [makeContactsFromMicrostructure, List.get?_eq_getElem?,
    List.getElem?_map] at h
  rcases Nat.lt_or_ge u ageByUid.length with hlt | hge
  · rw [List.getElem?_range hlt] at h
    simp only [Option.map_some', Option.some.injEq] at h
    subst h
    exact ⟨rfl, rfl, rfl, rfl, rfl⟩
  · rw [List.getElem?_eq_none (by simpa using hge)] at h
    simp at h


theorem generateFrom_ok_inv {cfg : Config} {d : Data} {r0 : Rng} {res : GenResult}
    (h : generateFrom cfg d r0 = .ok res) :
    ∃ facilities r2 hhSizes r3 households r4 schoolsB r5 teachersB wp2 r6
      staffB wp3 r7 facStaff wp4 r8 workplacesB wp5 r9,
      partitionBySampledSizes d.residentSizeDistr d.residentSizeBrackets
          (shuffleList (allResidentAges cfg.n d) r0).1.length
          (shuffleList (allResidentAges cfg.n d) r0).1
          (shuffleList (allResidentAges cfg.n d) r0).2 = .ok (facilities, r2) ∧
      generateHouseholdSizes d (nNonltcf cfg.n facilities) r2 = .ok (hhSizes, r3) ∧
      generateAllHouseholds d hhSizes r3 = .ok (households, r4) ∧
      partitionBySampledSizes d.schoolSizeDistr d.schoolSizeBrackets
          (uidsInSchool d (facilities ++ households).flatten).length
          (uidsInSchool d (facilities ++ households).flatten) r4
        = .ok (schoolsB, r5) ∧
      assignTeachersToSchools cfg schoolsB
          (removeResidentsFromWorkers (facilities ++ households).flatten
            ((assignUidsByHomes (facilities ++ households)).take facilities.length)
            (initialWorkerPools d (facilities ++ households).flatten
              (uidsInSchool d (facilities ++ households).flatten))) r5
        = .ok (teachersB, wp2, r6) ∧
      assignNonTeachingStaff cfg (schoolsB.zip teachersB) wp2 r6
        = .ok (staffB, wp3, r7) ∧
      assignFacilityStaff d cfg.ltcfStaffAgeMin cfg.ltcfStaffAgeMax facilities
          wp3 r7 = .ok (facStaff, wp4, r8) ∧
      assignRestOfWorkers d (remainingWorkers wp4) wp4 r8
        = .ok (workplacesB, wp5, r9) ∧
      res.ageByUid = (facilities ++ households).flatten ∧
      res.facilitiesByUids
        = (assignUidsByHomes (facilities ++ households)).take facilities.length ∧
      res.homesByUids
        = (assignUidsByHomes (facilities ++ households)).drop facilities.length ∧
      res.schoolsByUids = schoolsB ∧
      res.teachersByUids = teachersB ∧
      res.nonTeachingStaffUids = staffB ∧
      res.workplacesByUids = workplacesB ∧
      res.facilitiesStaffUids = facStaff ∧
      res.contactsRng = r9 ∧
      res.popdict = makeContactsFromMicrostructure res.ageByUid res.homesByUids
        res.schoolsByUids res.teachersByUids res.nonTeachingStaffUids
        res.workplacesByUids res.facilitiesByUids res.facilitiesStaffUids
        ((mergedMaxContacts cfg.maxContacts "W").getD 20) res.contactsRng ∧
      res.trace = canonicalTrace := by
  simp only [generateFrom] at h
  split at h
  · simp at h
  · rename_i facilities r2 h1
    split at h
    · simp at h
    · rename_i hhSizes r3 h2
      split at h
      · simp at h
      · rename_i households r4 h3
        split at h
        · simp at h
        · rename_i schoolsB r5 h4
          split at h
          · simp at h
          · rename_i teachersB wp2 r6 h5
            split at h
            · simp at h
            · rename_i staffB wp3 r7 h6
              split at h
              · simp at h
              · rename_i facStaff wp4 r8 h7
                split at h
                · simp at h
                · rename_i workplacesB wp5 r9 h8
                  simp only [Except.ok.injEq] at h
                  subst h
                  exact ⟨facilities, r2, hhSizes, r3, households, r4, schoolsB,
                    r5, teachersB, wp2, r6, staffB, wp3, r7, facStaff, wp4, r8,
                    workplacesB, wp5, r9, h1, h2, h3, h4, h5, h6, h7, h8,
                    rfl, rfl, rfl, rfl, rfl, rfl, rfl, rfl, rfl, rfl, rfl⟩


theorem assignUids_take_map_length (facilities households : List (List Nat)) :
    ((assignUidsByHomes (facilities ++ households)).take facilities.length).map
      List.length = facilities.map List.length := by
  rw [List.map_take]
  unfold assignUidsByHomes
  rw [assignUidsGo_map_length, List.map_append]
  have hl : facilities.length = (facilities.map List.length).length := by simp
  rw [hl, List.take_left]

theorem assignUids_drop_map_length (facilities households : List (List Nat)) :
    ((assignUidsByHomes (facilities ++ households)).drop facilities.length).map
      List.length = households.map List.length := by
  rw [List.map_drop]
  unfold assignUidsByHomes
  rw [assignUidsGo_map_length, List.map_append]
  have hl : facilities.length = (facilities.map List.length).length := by simp
  rw [hl, List.drop_left]

/-- C1: for every successful synthesis run, the sum of the generated household
sizes plus the sum of all facility resident counts equals the configured
population size `n`; equivalently, households are generated for exactly
`n_nonltcf = n -` (total facility residents) individuals (pop.py lines 304-316
and 338-349). -/
theorem c1_household_plus_facility_sizes_eq_n (cfg : Config) (d : Data) (g : Rng)
    (res : GenResult) (h : generate cfg d g = .ok res) :
    (res.homesByUids.map List.length).sum
      + (res.facilitiesByUids.map List.length).sum = cfg.n := by
  unfold generate at h
  obtain ⟨facilities, r2, hhSizes, r3, households, r4, schoolsB, r5, teachersB,
    wp2, r6, staffB, wp3, r7, facStaff, wp4, r8, workplacesB, wp5, r9,
    h1, h2, h3, _, _, _, _, _, _, hfacU, hhomeU, _, _, _, _, _, _, _, _⟩ :=
    generateFrom_ok_inv h
  obtain ⟨hnn, hsumZ, hpos⟩ := generateHouseholdSizes_ok h2
  have hmap := generateAllHouseholds_ok_lengths h3 hpos
  have hfacLen : res.facilitiesByUids.map List.length
      = facilities.map List.length := by
    rw [hfacU]; exact assignUids_take_map_length facilities households
  have hhomeLen : res.homesByUids.map List.length = hhSizes := by
    rw [hhomeU, assignUids_drop_map_length facilities households, hmap]
  rw [hfacLen, hhomeLen]
  unfold nNonltcf at hsumZ
  omega

set_option maxRecDepth 100000 in
theorem c1_household_plus_facility_sizes_eq_n_witness :
    (genResultW.homesByUids.map List.length).sum
      + (genResultW.facilitiesByUids.map List.length).sum = cfgW.n :=
  c1_household_plus_facility_sizes_eq_n cfgW dataW ⟨0⟩ genResultW
    (by with_unfolding_all rfl)

/-- C2 (code bug): the population dictionary assembled by
`make_contacts_from_microstructure_objects` is bound to `popdict`
(pop.py line 472), but the final statement `return population` (line 492)
reads the name `population`, which is bound neither anywhere in the body of
`Pop.generate` nor at the module level of pop.py, so in Python the return
raises `NameError` instead of returning the assembled dictionary that
`Pop.__init__` (lines 115-122) expects to iterate and store. -/
theorem c2_return_name_unbound :
    generateReturnName ∉ generateBoundNames ∧
    generateReturnName ∉ popModuleNames ∧
    "popdict" ∈ generateBoundNames := by
  decide

set_option maxRecDepth 100000 in
/-- C3 counterexample: the witness run succeeds, yet in its stage trace the
facility staff are drawn after teachers and non-teaching school staff,
contradicting the claimed ordering in which FacilityAssigner (residents and
staff both) completes before any workforce draw. -/
theorem c3_counterexample_staff_after_teachers : ¬ claimC3Order := by
  intro hclaim
  have hrun : generate cfgW dataW ⟨0⟩ = .ok genResultW := by
    with_unfolding_all rfl
  have h2 := hclaim cfgW dataW ⟨0⟩ genResultW hrun
  have ht : genResultW.trace = canonicalTrace := by with_unfolding_all rfl
  rw [ht] at h2
  revert h2
  decide

/-- C3 (amended): the pipeline stages execute in the source order facility
residents, households, uid assignment, schools, potential-worker pools,
facility-resident removal, teachers, non-teaching school staff, facility
staff, workplaces, contact assembly: facility residents are placed and removed
from the worker pools before any teacher is drawn, but facility staff are
drawn only after school teachers and non-teaching staff, and before workplace
workers. -/
theorem c3_stage_order (cfg : Config) (d : Data) (g : Rng) (res : GenResult)
    (h : generate cfg d g = .ok res) :
    res.trace = canonicalTrace ∧
    res.trace.indexOf Stage.facilityResidents < res.trace.indexOf Stage.households ∧
    res.trace.indexOf Stage.households < res.trace.indexOf Stage.schools ∧
    res.trace.indexOf Stage.schools < res.trace.indexOf Stage.teachers ∧
    res.trace.indexOf Stage.removeResidents < res.trace.indexOf Stage.teachers ∧
    res.trace.indexOf Stage.teachers < res.trace.indexOf Stage.nonTeachingStaff ∧
    res.trace.indexOf Stage.nonTeachingStaff < res.trace.indexOf Stage.facilityStaff ∧
    res.trace.indexOf Stage.facilityStaff < res.trace.indexOf Stage.workplaces ∧
    res.trace.indexOf Stage.workplaces < res.trace.indexOf Stage.contacts := by
  unfold generate at h
  obtain ⟨facilities, r2, hhSizes, r3, households, r4, schoolsB, r5, teachersB,
    wp2, r6, staffB, wp3, r7, facStaff, wp4, r8, workplacesB, wp5, r9,
    _, _, _, _, _, _, _, _, _, _, _, _, _, _, _, _, _, _, htrace⟩ :=
    generateFrom_ok_inv h
  rw [htrace]
  exact ⟨rfl, by decide, by decide, by decide, by decide, by decide, by decide,
    by decide, by decide⟩

set_option maxRecDepth 100000 in
theorem c3_stage_order_witness :
    genResultW.trace = canonicalTrace ∧
    genResultW.trace.indexOf Stage.facilityResidents
      < genResultW.trace.indexOf Stage.households ∧
    genResultW.trace.indexOf Stage.households
      < genResultW.trace.indexOf Stage.schools ∧
    genResultW.trace.indexOf Stage.schools
      < genResultW.trace.indexOf Stage.teachers ∧
    genResultW.trace.indexOf Stage.removeResidents
      < genResultW.trace.indexOf Stage.teachers ∧
    genResultW.trace.indexOf Stage.teachers
      < genResultW.trace.indexOf Stage.nonTeachingStaff ∧
    genResultW.trace.indexOf Stage.nonTeachingStaff
      < genResultW.trace.indexOf Stage.facilityStaff ∧
    genResultW.trace.indexOf Stage.facilityStaff
      < genResultW.trace.indexOf Stage.workplaces ∧
    genResultW.trace.indexOf Stage.workplaces
      < genResultW.trace.indexOf Stage.contacts :=
  c3_stage_order cfgW dataW ⟨0⟩ genResultW (by with_unfolding_all rfl)

/-- C4 counterexample: in the facility-staff stage, with every per-age counter
at zero but a worker of age 30 still present in the pool, the draw errors
instead of clamping the counter at zero, refuting the claim that every
worker-consuming stage clamps rather than errors. -/
theorem c4_counterexample_staff_draw_errors : ¬ claimC4Clamping := by
  intro hclaim
  have hex : ∃ a, 30 ≤ a ∧ a ≤ 30 ∧ wpC4cex.byAge.getD a [] ≠ [] :=
    ⟨30, le_refl 30, le_refl 30, by decide⟩
  exact hclaim 30 30 wpC4cex ⟨0⟩ hex Err.insufficientSupply
    (by with_unfolding_all rfl)

/-- C4 (amended): the per-age remaining-workers counters never become
negative: the facility-resident removal (pop.py lines 396-403) decrements a
counter only when it is positive, the spec-modelled school/workplace worker
draws clamp the counter at zero, and the facility-staff draw (lines 440-448),
though it decrements unconditionally and errors when all its weights vanish,
only ever draws an age whose counter is positive. -/
theorem c4_counters_never_negative :
    (∀ (ages : List Nat) (facs : List (List Uid)) (wp : WorkerPools),
      (∀ c ∈ wp.counts, 0 ≤ c) →
      ∀ c ∈ (removeResidentsFromWorkers ages facs wp).counts, 0 ≤ c) ∧
    (∀ (lo hi : Nat) (wp : WorkerPools) (r : Rng) (uid : Uid)
        (wp1 : WorkerPools) (r1 : Rng),
      (∀ c ∈ wp.counts, 0 ≤ c) →
      drawWorkerClamped lo hi wp r = .ok (uid, wp1, r1) →
      ∀ c ∈ wp1.counts, 0 ≤ c) ∧
    (∀ (lo hi : Nat) (wp : WorkerPools) (r : Rng) (uid : Uid)
        (wp1 : WorkerPools) (r1 : Rng),
      (∀ c ∈ wp.counts, 0 ≤ c) →
      drawStaffOne lo hi wp r = .ok (uid, wp1, r1) →
      ∀ c ∈ wp1.counts, 0 ≤ c) :=
  ⟨removeResidentsFromWorkers_counts,
   fun _ _ _ _ _ _ _ h0 h => drawWorkerClamped_ok_counts h0 h,
   fun _ _ _ _ _ _ _ h0 h => drawStaffOne_ok_counts h0 h⟩

theorem c4_counters_never_negative_witness :
    (∀ c ∈ (removeResidentsFromWorkers [0] [[0]]
      (WorkerPools.mk [[0]] [1])).counts, 0 ≤ c) ∧
    (∀ c ∈ (WorkerPools.mk [[]] [1]).counts, 0 ≤ c) ∧
    (∀ c ∈ (WorkerPools.mk [[]] [1]).counts, 0 ≤ c) :=
  ⟨c4_counters_never_negative.1 [0] [[0]] (WorkerPools.mk [[0]] [1]) (by decide),
   c4_counters_never_negative.2.1 0 0 (WorkerPools.mk [[5]] [2]) ⟨0⟩ 5
     (WorkerPools.mk [[]] [1]) ⟨12345⟩ (by decide) (by with_unfolding_all rfl),
   c4_counters_never_negative.2.2 0 0 (WorkerPools.mk [[5]] [2]) ⟨0⟩ 5
     (WorkerPools.mk [[]] [1]) ⟨12345⟩ (by decide) (by with_unfolding_all rfl)⟩

/-- C5: for a facility with `r` residents, the number of staff drawn equals
`ceil(r / (ratio / 3))`, where `ratio` is the mean of the resident-to-staff
ratio bracket sampled from the configured ratio distribution and is divided by
3 for the three 8-hour shifts before the ceiling is taken (pop.py lines
429-437, loop lines 440-451). -/
theorem c5_staff_count_formula (d : Data) (lo hi : Nat) (fc : List Nat)
    (wp : WorkerPools) (r r1 : Rng) (sbIdx : Nat) (staff : List Uid)
    (wp2 : WorkerPools) (r2 : Rng)
    (hc : choiceWeighted d.ratioDistr r = .ok (sbIdx, r1))
    (hs : staffOneFacility d lo hi fc wp r = .ok (staff, wp2, r2)) :
    staff.length = (⌈(fc.length : ℚ) /
      (listMeanQ (d.ratioBrackets.getD sbIdx []) / 3)⌉).toNat := by
  obtain ⟨sbIdx2, r1b, hcw2, hne, hlen⟩ := staffOneFacility_ok_inv hs
  rw [hcw2] at hc
  simp only [Except.ok.injEq, Prod.mk.injEq] at hc
  obtain ⟨he1, he2⟩ := hc
  subst he1
  exact hlen

set_option maxRecDepth 100000 in
theorem c5_staff_count_formula_witness :
    staffC5.1.length = (⌈((List.length [90, 90] : Nat) : ℚ) /
      (listMeanQ (dataW.ratioBrackets.getD 0 []) / 3)⌉).toNat :=
  c5_staff_count_formula dataW 20 60 [90, 90] wpC5 ⟨0⟩ ⟨12345⟩ 0
    staffC5.1 staffC5.2.1 staffC5.2.2
    (by with_unfolding_all rfl) (by with_unfolding_all rfl)

/-- C6: if, while drawing staff for a facility, the potential-worker pool
restricted to the staff age range [lo, hi] is exhausted before the required
staff count is met, the draw loop (pop.py lines 440-451) fails with a hard
`InsufficientSupply` error: it never retries and never returns an
under-staffed result, and the `Except` error propagates out of `generate`. -/
theorem c6_exhausted_staff_pool_errors (lo hi k : Nat) (wp : WorkerPools)
    (r : Rng) (hk : 1 ≤ k)
    (hpool : ∀ a ∈ (List.range (hi + 1 - lo)).map (· + lo),
      wp.byAge.getD a [] = []) :
    drawStaffLoop lo hi k wp r = .error Err.insufficientSupply := by
  match k, hk with
  | k + 1, _ =>
    simp only [drawStaffLoop, drawStaffOne_error_of_empty hpool]

theorem c6_exhausted_staff_pool_errors_witness :
    drawStaffLoop 20 60 1 wpC6 ⟨0⟩ = .error Err.insufficientSupply :=
  c6_exhausted_staff_pool_errors 20 60 1 wpC6 ⟨0⟩ (by decide) (by decide)

/-- C7: every facility created has at least one resident (a facility is only
started while the resident pool is non-empty and its sampled size, clamped to
the remaining residents, is positive whenever the size brackets hold positive
sizes; pop.py lines 304-316) and at least one staff member (the staff count is
the ceiling of a positive quantity whenever the sampled ratio bracket has a
positive mean; lines 437-451). -/
theorem c7_facility_resident_and_staff_counts (cfg : Config) (d : Data)
    (g : Rng) (res : GenResult)
    (hb : ∀ br ∈ d.residentSizeBrackets, ∀ s ∈ br, 1 ≤ s)
    (hr : ∀ br ∈ d.ratioBrackets, 0 < listMeanQ br)
    (h : generate cfg d g = .ok res) :
    (∀ fc ∈ res.facilitiesByUids, 1 ≤ fc.length) ∧
    (∀ st ∈ res.facilitiesStaffUids, 1 ≤ st.length) := by
  unfold generate at h
  obtain ⟨facilities, r2, hhSizes, r3, households, r4, schoolsB, r5, teachersB,
    wp2, r6, staffB, wp3, r7, facStaff, wp4, r8, workplacesB, wp5, r9,
    h1, _, _, _, _, _, h7, _, _, hfacU, _, _, _, _, _, hstf, _, _, _⟩ :=
    generateFrom_ok_inv h
  have hfpos := partitionBySampledSizes_ok_pos hb h1
  constructor
  · intro fc hfc
    have hlen : res.facilitiesByUids.map List.length
        = facilities.map List.length := by
      rw [hfacU]; exact assignUids_take_map_length facilities households
    have hmem : fc.length ∈ facilities.map List.length := by
      rw [← hlen]; exact List.mem_map_of_mem _ hfc
    obtain ⟨fc2, hfc2, hfc2len⟩ := List.mem_map.mp hmem
    rw [← hfc2len]
    exact hfpos fc2 hfc2
  · rw [hstf]
    exact assignFacilityStaff_ok_pos hr h7 hfpos

set_option maxRecDepth 100000 in
theorem c7_facility_resident_and_staff_counts_witness :
    (∀ fc ∈ genResultW.facilitiesByUids, 1 ≤ fc.length) ∧
    (∀ st ∈ genResultW.facilitiesStaffUids, 1 ≤ st.length) :=
  c7_facility_resident_and_staff_counts cfgW dataW ⟨0⟩ genResultW
    (by decide) (by with_unfolding_all decide) (by with_unfolding_all rfl)

/-- C8: two synthesis runs with identical configuration and demographic data
and the same set `rand_seed` produce identical output — the generator is
re-seeded from the seed alone (pop.py lines 89-90), so the prior global
generator state is irrelevant and every sample, uid and contact set is
reproduced. -/
theorem c8_fixed_seed_deterministic (cfg : Config) (d : Data) (s : Nat)
    (hseed : cfg.randSeed = some s) (g1 g2 : Rng) :
    generate cfg d g1 = generate cfg d g2 := by
  unfold generate initRng
  rw [hseed]

theorem c8_fixed_seed_deterministic_witness :
    generate cfgW dataW ⟨0⟩ = generate cfgW dataW ⟨1⟩ :=
  c8_fixed_seed_deterministic cfgW dataW 5 rfl ⟨0⟩ ⟨1⟩

/-- C9: in every output contact layer (household, school, workplace, facility,
community) the contact relation is symmetric — an individual is in another's
contact set exactly when the other is in its set — and no individual appears
in its own contact set. -/
theorem c9_contacts_symmetric_irreflexive (cfg : Config) (d : Data) (g : Rng)
    (res : GenResult) (l : Layer) (u v : Uid) (pu pv : Person)
    (h : generate cfg d g = .ok res)
    (hu : res.popdict.get? u = some pu) (hv : res.popdict.get? v = some pv) :
    (v ∈ pu.contactsOf l ↔ u ∈ pv.contactsOf l) ∧ u ∉ pu.contactsOf l := by
  unfold generate at h
  obtain ⟨facilities, r2, hhSizes, r3, households, r4, schoolsB, r5, teachersB,
    wp2, r6, staffB, wp3, r7, facStaff, wp4, r8, workplacesB, wp5, r9,
    _, _, _, _, _, _, _, _, _, _, _, _, _, _, _, _, _, hpop, _⟩ :=
    generateFrom_ok_inv h
  rw [hpop] at hu hv
  obtain ⟨huH, huS, huW, huL, huC⟩ := makeContacts_get?_eq hu
  obtain ⟨hvH, hvS, hvW, hvL, hvC⟩ := makeContacts_get?_eq hv
  cases l with
  | H =>
    simp only [Person.contactsOf, huH, hvH]
    exact ⟨contactsOfUid_symm,
      contactsOfUid_irrefl (fun e he => edgesOfGroups_ne he)⟩
  | S =>
    simp only [Person.contactsOf, huS, hvS]
    exact ⟨contactsOfUid_symm,
      contactsOfUid_irrefl (fun e he => edgesOfGroups_ne he)⟩
  | W =>
    simp only [Person.contactsOf, huW, hvW]
    exact ⟨contactsOfUid_symm,
      contactsOfUid_irrefl (fun e he => edgesOfGroups_ne he)⟩
  | LTCF =>
    simp only [Person.contactsOf, huL, hvL]
    exact ⟨contactsOfUid_symm,
      contactsOfUid_irrefl (fun e he => edgesOfGroups_ne he)⟩
  | C =>
    simp only [Person.contactsOf, huC, hvC]
    simp

set_option maxRecDepth 100000 in
theorem c9_contacts_symmetric_irreflexive_witness :
    ((1 ∈ personW0.contactsOf Layer.LTCF ↔ 0 ∈ personW1.contactsOf Layer.LTCF) ∧
      0 ∉ personW0.contactsOf Layer.LTCF) :=
  c9_contacts_symmetric_irreflexive cfgW dataW ⟨0⟩ genResultW Layer.LTCF 0 1
    personW0 personW1 (by with_unfolding_all rfl)
    (by with_unfolding_all rfl) (by with_unfolding_all rfl)

/-- C10: `self.max_contacts = sc.mergedicts({'W': 20}, max_contacts)`
(pop.py lines 92-95): user-supplied entries override the default, a missing
dictionary or missing "W" key falls back to 20, and the merged dictionary
always carries the "W" key. -/
theorem c10_max_contacts_default (mc : Option (String → Option Nat)) :
    mergedMaxContacts mc "W" = some (((mc.getD (fun _ => none)) "W").getD 20) ∧
    (mergedMaxContacts mc "W").isSome = true ∧
    (mc = none → mergedMaxContacts mc "W" = some 20) ∧
    (∀ f, mc = some f → f "W" = none → mergedMaxContacts mc "W" = some 20) ∧
    (∀ f v, mc = some f → f "W" = some v → mergedMaxContacts mc "W" = some v) := by
  cases mc with
  | none =>
    refine ⟨rfl, rfl, fun _ => rfl, ?_, ?_⟩
    · intro f hf; cases hf
    · intro f v hf; cases hf
  | some f =>
    cases hf : f "W" with
    | none =>
      refine ⟨?_, ?_, ?_, ?_, ?_⟩
      · simp [mergedMaxContacts, mergedicts, defaultMaxContacts, hf, Option.orElse]
      · simp [mergedMaxContacts, mergedicts, defaultMaxContacts, hf, Option.orElse]
      · intro hc; cases hc
      · intro f2 hf2 _
        simp only [Option.some.injEq] at hf2
        subst hf2
        simp [mergedMaxContacts, mergedicts, defaultMaxContacts, hf, Option.orElse]
      · intro f2 v hf2 hv
        simp only [Option.some.injEq] at hf2
        subst hf2
        rw [hf] at hv
        cases hv
    | some w =>
      refine ⟨?_, ?_, ?_, ?_, ?_⟩
      · simp [mergedMaxContacts, mergedicts, hf, Option.orElse]
      · simp [mergedMaxContacts, mergedicts, hf, Option.orElse]
      · intro hc; cases hc
      · intro f2 hf2 hnone
        simp only [Option.some.injEq] at hf2
        subst hf2
        rw [hf] at hnone
        cases hnone
      · intro f2 v hf2 hv
        simp only [Option.some.injEq] at hf2
        subst hf2
        rw [hf] at hv
        simp only [Option.some.injEq] at hv
        subst hv
        simp [mergedMaxContacts, mergedicts, hf, Option.orElse]

theorem c10_max_contacts_default_witness :
    mergedMaxContacts none "W" = some 20 ∧
    mergedMaxContacts (some userMaxContactsW) "W" = some 7 :=
  ⟨(c10_max_contacts_default none).2.2.1 rfl,
   (c10_max_contacts_default (some userMaxContactsW)).2.2.2.2 userMaxContactsW 7
     rfl (by decide)⟩

end Synthpops
